import Mathlib

set_option maxRecDepth 4000

/-!
Shallow embedding of the Zurich Berechnungstechnik tool (run_txt_demo.py).

Conventions of the embedding:
* Python floats are modelled as exact rationals (ℚ); Python ints as ℤ.
* A raised Python exception is modelled as the error branch of `Except`,
  carrying the exception's type name and message (`PyError`).
* `round(x, 2)` is modelled by `round2` (round half to even, as CPython).
* File contents reach the importer already split into delimiter-separated
  rows (`List (List String)`), abstracting the csv lexer and the
  byte-order-mark handling of the utf-8-sig decoding.
* The exporter's file-system writes are modelled as the lists of rows and
  letters produced before the first failure (`ExportErgebnis`).
-/

deriving instance DecidableEq for Except

/-- Python exception value: exception type name plus message. -/
structure PyError where
  typ : String
  msg : String
deriving DecidableEq

/-- The `Vertrag` dataclass of run_txt_demo.py. -/
structure Vertrag where
  vertragsnr : ℤ
  kundenname : String
  jahreszins : ℚ
  monatsbeitrag : ℚ
  monatskosten : ℚ
  startbetrag : ℚ
  monate : ℤ
deriving DecidableEq

/-- Rounding of `round(x, n)` at integer scale: CPython rounds half to even. -/
def roundHalfEven (x : ℚ) : ℤ :=
  let f := Int.floor x
  let r := x - f
  if r < 1/2 then f
  else if 1/2 < r then f + 1
  else if f % 2 = 0 then f else f + 1

/-- Python `round(x, 2)`. -/
def round2 (x : ℚ) : ℚ := (roundHalfEven (x * 100) : ℚ) / 100

/-- `monatszins` of run_txt_demo.py: annual rate to monthly rate. -/
def monatszins (jahreszins : ℚ) : ℚ := jahreszins / 12

/-- `folgewert` of run_txt_demo.py: value after one month. -/
def folgewert (v_t : ℚ) (beitrag : ℚ) (kosten : ℚ) (i : ℚ) : ℚ :=
  v_t * (1 + i) + (beitrag - kosten)

/-- Message of the ValueError raised for a negative value in month `m`. -/
def negativMsg (vertragsnr : ℤ) (m : ℕ) : String :=
  "Negativer Vertragswert bei Vertrag " ++ toString vertragsnr ++
    " (Monat " ++ toString m ++ ")."

/-- The `for m in range(1, v.monate + 1)` loop body of `berechne_zeitplan`:
`wert` is the running unrounded value, `m` the current month number and
`rest` the number of months still to process. -/
def zeitplanSchleife (v : Vertrag) (i : ℚ) (wert : ℚ) (m : ℕ) (rest : ℕ) :
    Except PyError (List (ℕ × ℚ)) :=
  match rest with
  | 0 => .ok []
  | r + 1 =>
    let wert2 := folgewert wert v.monatsbeitrag v.monatskosten i
    if wert2 < 0 then .error ⟨"ValueError", negativMsg v.vertragsnr m⟩
    else
      match zeitplanSchleife v i wert2 (m + 1) r with
      | .error e => .error e
      | .ok rest => .ok ((m, round2 wert2) :: rest)

/-- `berechne_zeitplan` of run_txt_demo.py. -/
def berechne_zeitplan (v : Vertrag) : Except PyError (List (ℕ × ℚ)) :=
  if v.monate ≤ 0 then .error ⟨"ValueError", "Monate müssen > 0 sein."⟩
  else if v.startbetrag < 0 then
    .error ⟨"ValueError", "Startbetrag darf nicht negativ sein."⟩
  else if v.monatsbeitrag < 0 ∨ v.monatskosten < 0 then
    .error ⟨"ValueError", "Beitrag/Kosten dürfen nicht negativ sein."⟩
  else zeitplanSchleife v (monatszins v.jahreszins) v.startbetrag 1 v.monate.toNat

/-- Pure iterate of `folgewert`: the unrounded value of the recurrence after
`n` steps starting from `w`. -/
def iterFolge (b : ℚ) (k : ℚ) (i : ℚ) (w : ℚ) : ℕ → ℚ
  | 0 => w
  | n + 1 => folgewert (iterFolge b k i w n) b k i

/-- The unrounded value of contract `v` after `n` months of the recurrence. -/
def wertNach (v : Vertrag) (n : ℕ) : ℚ :=
  iterFolge v.monatsbeitrag v.monatskosten (monatszins v.jahreszins) v.startbetrag n

/-- Python `str.strip()` over the ASCII whitespace of this file format
(kernel-computable, unlike String.trim). -/
def strip (s : String) : String :=
  String.mk ((s.data.dropWhile Char.isWhitespace).reverse.dropWhile Char.isWhitespace).reverse

/-- The `expected` header list of `import_vertraege_txt`. -/
def expected : List String :=
  ["vertragsnr", "kundenname", "jahreszins", "monatsbeitrag", "monatskosten",
    "startbetrag", "monate"]

/-- Lookup of `row.get(k)` in the trimmed row dict built by the DictReader
with fieldnames `expected`: a field beyond the row's length is `None`. -/
def feldWert (row : List String) (k : String) : Option String :=
  (row[expected.indexOf k]?).map strip

/-- Python `repr` of an optional string cell (`None` or a quoted string). -/
def pyReprOptStr : Option String → String
  | none => "None"
  | some s => "\x27" ++ s ++ "\x27"

/-- Python `repr` of the trimmed row dict, as interpolated into the
empty-value error message. -/
def pyDictRepr (row : List String) : String :=
  "\x7b" ++
    String.intercalate ", "
      (expected.map fun k => "\x27" ++ k ++ "\x27: " ++ pyReprOptStr (feldWert row k)) ++
    "\x7d"

/-- Python `repr` of a list of strings, as interpolated into the header
mismatch error message. -/
def pyListRepr (l : List String) : String :=
  "[" ++ String.intercalate ", " (l.map fun s => "\x27" ++ s ++ "\x27") ++ "]"

/-- Message of the ValueError raised for an empty value in column `k`. -/
def leererWertMsg (k : String) (row : List String) : String :=
  "Leerer Wert in Spalte \x27" ++ k ++ "\x27 in Zeile: " ++ pyDictRepr row

/-- Message of the ValueError raised for a header mismatch, reporting the
expected and the received (trimmed) header. -/
def headerFehlerMsg (header : List String) : String :=
  "Header passt nicht.\nErwartet: " ++ pyListRepr expected ++
    "\nBekommen: " ++ pyListRepr header

/-- Value of a nonempty all-digit character list, `none` otherwise. -/
def parseDigits (cs : List Char) : Option ℕ :=
  if cs = [] then none
  else cs.foldl
    (fun acc c => acc.bind fun a =>
      if c.isDigit then some (a * 10 + (c.toNat - 48)) else none)
    (some 0)

/-- Python `int(s)` on a stripped string: optional sign then digits. -/
def pyInt? (s : String) : Option ℤ :=
  match s.toList with
  | '-' :: rest => (parseDigits rest).map fun n => -(n : ℤ)
  | '+' :: rest => (parseDigits rest).map fun n => (n : ℤ)
  | cs => (parseDigits cs).map fun n => (n : ℤ)

/-- Python `float(s)` on a stripped string holding a finite decimal form:
optional sign, mantissa with optional decimal point, optional exponent. -/
def pyFloat? (s : String) : Option ℚ :=
  let cs := s.toList
  let sgn : ℚ × List Char :=
    match cs with
    | '-' :: r => (-1, r)
    | '+' :: r => (1, r)
    | r => (1, r)
  let mantEx := sgn.2.span fun c => c ≠ 'e' ∧ c ≠ 'E'
  let expVal : Option ℤ :=
    match mantEx.2 with
    | [] => some 0
    | _ :: rest =>
      match rest with
      | '-' :: r2 => (parseDigits r2).map fun n => -(n : ℤ)
      | '+' :: r2 => (parseDigits r2).map fun n => (n : ℤ)
      | r2 => (parseDigits r2).map fun n => (n : ℤ)
  let mantVal : Option ℚ :=
    match mantEx.1.span fun c => c ≠ '.' with
    | (ip, []) => (parseDigits ip).map fun n => (n : ℚ)
    | (ip, _ :: frac) =>
      if ip = [] then (parseDigits frac).map fun f => (f : ℚ) / 10 ^ frac.length
      else if frac = [] then (parseDigits ip).map fun n => (n : ℚ)
      else (parseDigits ip).bind fun n =>
        (parseDigits frac).map fun f => (n : ℚ) + (f : ℚ) / 10 ^ frac.length
  mantVal.bind fun m => expVal.map fun e => sgn.1 * m * (10 : ℚ) ^ e

/-- Python `int(row[k])`: parse or raise the builtin ValueError. -/
def holeInt (row : List String) (k : String) : Except PyError ℤ :=
  let s := (feldWert row k).getD ""
  match pyInt? s with
  | some n => .ok n
  | none =>
    .error ⟨"ValueError", "invalid literal for int() with base 10: \x27" ++ s ++ "\x27"⟩

/-- Python `float(row[k])`: parse or raise the builtin ValueError. -/
def holeFloat (row : List String) (k : String) : Except PyError ℚ :=
  let s := (feldWert row k).getD ""
  match pyFloat? s with
  | some q => .ok q
  | none =>
    .error ⟨"ValueError", "could not convert string to float: \x27" ++ s ++ "\x27"⟩

/-- One iteration of the row loop of `import_vertraege_txt`: trim the row
dict (a row longer than the header puts its surplus under key `None`, whose
`strip` raises AttributeError), reject the first empty field in header
order, then build the `Vertrag` in the keyword-argument evaluation order. -/
def verarbeiteZeile (row : List String) : Except PyError Vertrag :=
  if expected.length < row.length then
    .error ⟨"AttributeError", "\x27NoneType\x27 object has no attribute \x27strip\x27"⟩
  else
    match expected.find? fun k => feldWert row k = none ∨ feldWert row k = some "" with
    | some k => .error ⟨"ValueError", leererWertMsg k row⟩
    | none =>
      match holeInt row "vertragsnr" with
      | .error e => .error e
      | .ok nr =>
        let name := (feldWert row "kundenname").getD ""
        match holeFloat row "jahreszins" with
        | .error e => .error e
        | .ok zins =>
          match holeFloat row "monatsbeitrag" with
          | .error e => .error e
          | .ok beitrag =>
            match holeFloat row "monatskosten" with
            | .error e => .error e
            | .ok kosten =>
              match holeFloat row "startbetrag" with
              | .error e => .error e
              | .ok start =>
                match holeInt row "monate" with
                | .error e => .error e
                | .ok monate => .ok ⟨nr, name, zins, beitrag, kosten, start, monate⟩

/-- The row loop of `import_vertraege_txt`: rows are processed in file
order, the first raised exception aborts the whole call. -/
def verarbeiteZeilen : List (List String) → Except PyError (List Vertrag)
  | [] => .ok []
  | r :: rest =>
    match verarbeiteZeile r with
    | .error e => .error e
    | .ok v =>
      match verarbeiteZeilen rest with
      | .error e => .error e
      | .ok vs => .ok (v :: vs)

/-- The `import_vertraege_txt` function of run_txt_demo.py over the csv-split
file content: first row is the header (`fieldnames`); an empty file has no
header row; blank rows are skipped by the DictReader. -/
def import_vertraege_txt (rows : List (List String)) : Except PyError (List Vertrag) :=
  match rows with
  | [] => .error ⟨"ValueError", "Keine Header-Zeile gefunden (erste Zeile leer?)."⟩
  | hd :: data =>
    let header := hd.map strip
    if header ≠ expected then .error ⟨"ValueError", headerFehlerMsg header⟩
    else verarbeiteZeilen (data.filter fun r => r ≠ [])

/-- Python formatting of the end value with exactly two decimal places,
format spec `.2f` (bankers rounding at the second decimal). -/
def format2 (q : ℚ) : String :=
  let n := roundHalfEven (q * 100)
  let a := n.natAbs
  (if n < 0 then "-" else "") ++ toString (a / 100) ++ "." ++
    (if a % 100 < 10 then "0" else "") ++ toString (a % 100)

/-- The `erstelle_brief` function of run_txt_demo.py; the current date
`date.today()` is passed in as the string `heute`. -/
def erstelle_brief (heute : String) (v : Vertrag) (endwert : ℚ) : String :=
  heute ++ "\n\n" ++
    "Betreff: Vertragswertinformation – Vertrag " ++ toString v.vertragsnr ++ "\n\n" ++
    "Sehr geehrte/r " ++ v.kundenname ++ ",\n\n" ++
    "der berechnete Vertragswert nach " ++ toString v.monate ++ " Monaten beträgt:\n\n" ++
    format2 endwert ++ " EUR\n\n" ++
    "Mit freundlichen Grüßen\n\n" ++
    "Ihre Zurich Versicherung\n"

/-- The on-disk effect of `export_ergebnisse`: the data rows written to
results.csv (after its unconditional header row), the letter files written
under letters/ keyed by contract number, and the exception aborting the
batch, if any. -/
structure ExportErgebnis where
  zeilen : List (ℤ × String × String)
  briefe : List (ℤ × String)
  fehler : Option PyError
deriving DecidableEq

/-- The contract loop of `export_ergebnisse`: for each contract compute the
schedule, write its results row, then write its letter; a raised exception
aborts the loop, leaving the rows and letters already written in place. -/
def exportSchleife (heute : String) : List Vertrag → ExportErgebnis
  | [] => ⟨[], [], none⟩
  | v :: rest =>
    match berechne_zeitplan v with
    | .error e => ⟨[], [], some e⟩
    | .ok zeitplan =>
      match zeitplan.getLast? with
      | none => ⟨[], [], some ⟨"IndexError", "list index out of range"⟩⟩
      | some letzter =>
        let st := exportSchleife heute rest
        ⟨(v.vertragsnr, v.kundenname, format2 letzter.2) :: st.zeilen,
          (v.vertragsnr, erstelle_brief heute v letzter.2) :: st.briefe,
          st.fehler⟩

/-- The `export_ergebnisse` function of run_txt_demo.py, abstracted over the
current date. -/
def export_ergebnisse (heute : String) (vertraege : List Vertrag) : ExportErgebnis :=
  exportSchleife heute vertraege

/-- End value of a contract whose valuation succeeds (the last schedule
entry's value); helper for stating the exporter claims. -/
def endwertVon (v : Vertrag) : ℚ :=
  match berechne_zeitplan v with
  | .ok zp => (zp.getLastD (0, 0)).2
  | .error _ => 0

/-- The results.csv row the exporter writes for a successfully valued
contract. -/
def zeileVon (v : Vertrag) : ℤ × String × String :=
  (v.vertragsnr, v.kundenname, format2 (endwertVon v))

/-- The letter file the exporter writes for a successfully valued contract. -/
def briefVon (heute : String) (v : Vertrag) : ℤ × String :=
  (v.vertragsnr, erstelle_brief heute v (endwertVon v))

/-- Scenario A contract of the specification. -/
def szenarioA : Vertrag := ⟨1, "Mueller", 12/100, 100, 10, 1000, 3⟩

theorem iterFolge_shift (b k i w : ℚ) (n : ℕ) :
    iterFolge b k i (folgewert w b k i) n = iterFolge b k i w (n + 1) := by
  induction n with
  | zero => rfl
  | succ n ih => simp [iterFolge, ih]

theorem zeitplanSchleife_ok_von (v : Vertrag) (i w : ℚ) (m rest : ℕ)
    (h : ∀ j < rest, 0 ≤ iterFolge v.monatsbeitrag v.monatskosten i w (j + 1)) :
    zeitplanSchleife v i w m rest =
      .ok ((List.range rest).map fun j =>
        (m + j, round2 (iterFolge v.monatsbeitrag v.monatskosten i w (j + 1)))) := by
  induction rest generalizing w m with
  | zero => rfl
  | succ r ih =>
    have h0 : ¬ folgewert w v.monatsbeitrag v.monatskosten i < 0 := by
      have h1 := h 0 (Nat.succ_pos r)
      simp only [iterFolge] at h1
      exact not_lt.mpr h1
    have hrec := ih (folgewert w v.monatsbeitrag v.monatskosten i) (m + 1)
      (fun j hj => by rw [iterFolge_shift]; exact h (j + 1) (by omega))
    simp only [zeitplanSchleife]
    rw [if_neg h0, hrec]
    simp only [List.range_succ_eq_map, List.map_cons, List.map_map]
    congr 1
    simp only [iterFolge, List.cons.injEq, Prod.mk.injEq, List.map_inj_left,
      Function.comp_apply, Nat.add_zero, true_and]
    intro a ha
    refine ⟨by omega, ?_⟩
    rw [iterFolge_shift]
    simp [iterFolge]

theorem zeitplanSchleife_fehler_von (v : Vertrag) (i w : ℚ) (m rest j0 : ℕ)
    (hlt : j0 < rest)
    (hneg : iterFolge v.monatsbeitrag v.monatskosten i w (j0 + 1) < 0)
    (hvor : ∀ j < j0, 0 ≤ iterFolge v.monatsbeitrag v.monatskosten i w (j + 1)) :
    zeitplanSchleife v i w m rest =
      .error ⟨"ValueError", negativMsg v.vertragsnr (m + j0)⟩ := by
  induction j0 generalizing w m rest with
  | zero =>
    cases rest with
    | zero => omega
    | succ r =>
      have h0 : folgewert w v.monatsbeitrag v.monatskosten i < 0 := by
        simpa only [iterFolge] using hneg
      simp [zeitplanSchleife, if_pos h0]
  | succ j ih =>
    cases rest with
    | zero => omega
    | succ r =>
      have h0 : ¬ folgewert w v.monatsbeitrag v.monatskosten i < 0 := by
        have h1 := hvor 0 (Nat.succ_pos j)
        simp only [iterFolge] at h1
        exact not_lt.mpr h1
      have hrec := ih (folgewert w v.monatsbeitrag v.monatskosten i) (m + 1) r
        (by omega)
        (by rw [iterFolge_shift]; exact hneg)
        (fun j2 hj2 => by rw [iterFolge_shift]; exact hvor (j2 + 1) (by omega))
      have harr : m + (j + 1) = (m + 1) + j := by omega
      simp only [zeitplanSchleife]
      rw [if_neg h0, hrec, harr]

theorem zeitplanSchleife_ok_inv (v : Vertrag) (i w : ℚ) (m rest : ℕ)
    (zp : List (ℕ × ℚ)) (h : zeitplanSchleife v i w m rest = .ok zp) :
    (∀ j < rest, 0 ≤ iterFolge v.monatsbeitrag v.monatskosten i w (j + 1)) ∧
      zp = (List.range rest).map fun j =>
        (m + j, round2 (iterFolge v.monatsbeitrag v.monatskosten i w (j + 1))) := by
  by_cases hex : ∃ j, j < rest ∧ iterFolge v.monatsbeitrag v.monatskosten i w (j + 1) < 0
  · have hfind := Nat.find_spec hex
    have herr := zeitplanSchleife_fehler_von v i w m rest (Nat.find hex)
      hfind.1 hfind.2
      (fun j2 hj2 => by
        have h2 := Nat.find_min hex hj2
        push_neg at h2
        exact h2 (by omega))
    rw [herr] at h
    exact absurd h (by simp)
  · push_neg at hex
    have hpos : ∀ j < rest, 0 ≤ iterFolge v.monatsbeitrag v.monatskosten i w (j + 1) :=
      fun j hj => hex j hj
    refine ⟨hpos, ?_⟩
    have hok := zeitplanSchleife_ok_von v i w m rest hpos
    rw [hok] at h
    exact (Except.ok.inj h).symm

theorem berechne_zeitplan_offen (v : Vertrag) (h1 : 0 < v.monate)
    (h2 : 0 ≤ v.startbetrag) (h3 : 0 ≤ v.monatsbeitrag) (h4 : 0 ≤ v.monatskosten) :
    berechne_zeitplan v =
      zeitplanSchleife v (monatszins v.jahreszins) v.startbetrag 1 v.monate.toNat := by
  rw [berechne_zeitplan, if_neg (not_le.mpr h1), if_neg (not_lt.mpr h2),
    if_neg (not_or.mpr ⟨not_lt.mpr h3, not_lt.mpr h4⟩)]

theorem berechne_zeitplan_checks (v : Vertrag) (zp : List (ℕ × ℚ))
    (h : berechne_zeitplan v = .ok zp) :
    0 < v.monate ∧ 0 ≤ v.startbetrag ∧ 0 ≤ v.monatsbeitrag ∧ 0 ≤ v.monatskosten := by
  rw [berechne_zeitplan] at h
  split_ifs at h with hA hB hC
  push_neg at hC
  exact ⟨not_le.mp hA, not_lt.mp hB, hC.1, hC.2⟩

theorem berechne_zeitplan_ok_char (v : Vertrag) (zp : List (ℕ × ℚ))
    (h : berechne_zeitplan v = .ok zp) :
    (∀ j < v.monate.toNat, 0 ≤ wertNach v (j + 1)) ∧
      zp = (List.range v.monate.toNat).map fun j => (1 + j, round2 (wertNach v (j + 1))) := by
  obtain ⟨h1, h2, h3, h4⟩ := berechne_zeitplan_checks v zp h
  rw [berechne_zeitplan_offen v h1 h2 h3 h4] at h
  exact zeitplanSchleife_ok_inv v (monatszins v.jahreszins) v.startbetrag 1
    v.monate.toNat zp h

theorem round2_nonneg (x : ℚ) (h : 0 ≤ x) : 0 ≤ round2 x := by
  have hf : (0 : ℤ) ≤ ⌊x * 100⌋ :=
    Int.floor_nonneg.mpr (by positivity)
  have h1 : (0 : ℚ) ≤ ((⌊x * 100⌋ : ℤ) : ℚ) := by exact_mod_cast hf
  have h2 : (0 : ℚ) ≤ ((⌊x * 100⌋ + 1 : ℤ) : ℚ) := by
    exact_mod_cast (by omega : (0 : ℤ) ≤ ⌊x * 100⌋ + 1)
  simp only [round2, roundHalfEven]
  split_ifs <;>
    first
      | exact div_nonneg h1 (by norm_num)
      | exact div_nonneg (by exact_mod_cast h2) (by norm_num)

theorem berechne_zeitplan_ok_ne_nil (v : Vertrag) (zp : List (ℕ × ℚ))
    (h : berechne_zeitplan v = .ok zp) : zp ≠ [] := by
  obtain ⟨hmon, _, _, _⟩ := berechne_zeitplan_checks v zp h
  obtain ⟨_, hzp⟩ := berechne_zeitplan_ok_char v zp h
  rw [hzp]
  refine List.ne_nil_of_length_pos ?_
  rw [List.length_map, List.length_range]
  omega

theorem verarbeiteZeilen_fehler_mem (rs : List (List String)) (e : PyError)
    (h : verarbeiteZeilen rs = .error e) : ∃ r ∈ rs, verarbeiteZeile r = .error e := by
  induction rs with
  | nil => simp [verarbeiteZeilen] at h
  | cons r rest ih =>
    cases hr : verarbeiteZeile r with
    | error e2 =>
      simp only [verarbeiteZeilen, hr] at h
      injection h with h2
      exact ⟨r, by simp, by rw [hr, h2]⟩
    | ok v =>
      cases hrest : verarbeiteZeilen rest with
      | error e2 =>
        rw [verarbeiteZeilen, hr, hrest] at h
        injection h with h2
        obtain ⟨r2, hmem, hfe⟩ := ih (by rw [hrest, h2])
        exact ⟨r2, by simp [hmem], hfe⟩
      | ok vs =>
        rw [verarbeiteZeilen, hr, hrest] at h
        exact absurd h (by simp)

theorem verarbeiteZeilen_praefix_fehler (pre : List (List String)) (r : List String)
    (post : List (List String)) (e : PyError)
    (hpre : ∀ p ∈ pre, ∃ vp, verarbeiteZeile p = .ok vp)
    (h : verarbeiteZeile r = .error e) :
    verarbeiteZeilen (pre ++ r :: post) = .error e := by
  induction pre with
  | nil => simp only [List.nil_append, verarbeiteZeilen, h]
  | cons p pre ih =>
    obtain ⟨vp, hvp⟩ := hpre p (by simp)
    have ihh := ih fun q hq => hpre q (by simp [hq])
    rw [List.cons_append, verarbeiteZeilen, hvp, ihh]

theorem holeInt_fehler_typ (row : List String) (k : String) (e : PyError)
    (h : holeInt row k = .error e) : e.typ = "ValueError" := by
  simp only [holeInt] at h
  cases hp : pyInt? ((feldWert row k).getD "") with
  | none => rw [hp] at h; injection h with h2; rw [← h2]
  | some n => rw [hp] at h; simp at h

theorem holeFloat_fehler_typ (row : List String) (k : String) (e : PyError)
    (h : holeFloat row k = .error e) : e.typ = "ValueError" := by
  simp only [holeFloat] at h
  cases hp : pyFloat? ((feldWert row k).getD "") with
  | none => rw [hp] at h; injection h with h2; rw [← h2]
  | some q => rw [hp] at h; simp at h

theorem verarbeiteZeile_fehler_typ (r : List String) (e : PyError)
    (hlen : r.length ≤ expected.length)
    (h : verarbeiteZeile r = .error e) : e.typ = "ValueError" := by
  simp only [verarbeiteZeile] at h
  rw [if_neg (not_lt.mpr hlen)] at h
  cases hf : expected.find? (fun k => feldWert r k = none ∨ feldWert r k = some "") with
  | some k => rw [hf] at h; injection h with h2; rw [← h2]
  | none =>
    rw [hf] at h
    cases hi1 : holeInt r "vertragsnr" with
    | error e1 => rw [hi1] at h; injection h with h2; rw [← h2]; exact holeInt_fehler_typ _ _ _ hi1
    | ok nr =>
      rw [hi1] at h
      cases hf1 : holeFloat r "jahreszins" with
      | error e1 => rw [hf1] at h; injection h with h2; rw [← h2]; exact holeFloat_fehler_typ _ _ _ hf1
      | ok zins =>
        rw [hf1] at h
        cases hf2 : holeFloat r "monatsbeitrag" with
        | error e1 => rw [hf2] at h; injection h with h2; rw [← h2]; exact holeFloat_fehler_typ _ _ _ hf2
        | ok beitrag =>
          rw [hf2] at h
          cases hf3 : holeFloat r "monatskosten" with
          | error e1 => rw [hf3] at h; injection h with h2; rw [← h2]; exact holeFloat_fehler_typ _ _ _ hf3
          | ok kosten =>
            rw [hf3] at h
            cases hf4 : holeFloat r "startbetrag" with
            | error e1 => rw [hf4] at h; injection h with h2; rw [← h2]; exact holeFloat_fehler_typ _ _ _ hf4
            | ok start =>
              rw [hf4] at h
              cases hi2 : holeInt r "monate" with
              | error e1 => rw [hi2] at h; injection h with h2; rw [← h2]; exact holeInt_fehler_typ _ _ _ hi2
              | ok monate => rw [hi2] at h; simp at h

theorem zeitplanSchleife_fehler_typ (v : Vertrag) (i w : ℚ) (m rest : ℕ) (e : PyError)
    (h : zeitplanSchleife v i w m rest = .error e) : e.typ = "ValueError" := by
  induction rest generalizing w m e with
  | zero => exact Except.noConfusion h
  | succ r ih =>
    by_cases hlt : folgewert w v.monatsbeitrag v.monatskosten i < 0
    · rw [zeitplanSchleife, if_pos hlt] at h
      injection h with h2
      rw [← h2]
    · rw [zeitplanSchleife, if_neg hlt] at h
      cases hrec : zeitplanSchleife v i (folgewert w v.monatsbeitrag v.monatskosten i) (m + 1) r with
      | error e2 =>
        rw [hrec] at h
        injection h with h2
        rw [← h2]
        exact ih _ _ _ hrec
      | ok tl =>
        rw [hrec] at h
        exact Except.noConfusion h

theorem verarbeiteZeile_leer_fehler (r : List String)
    (hk : ∃ k ∈ expected, feldWert r k = none ∨ feldWert r k = some "") :
    ∃ e, verarbeiteZeile r = .error e := by
  by_cases hlen : expected.length < r.length
  · exact ⟨_, by simp only [verarbeiteZeile]; rw [if_pos hlen]⟩
  · obtain ⟨k, hkmem, hkval⟩ := hk
    have hsome : (expected.find? fun k2 =>
        feldWert r k2 = none ∨ feldWert r k2 = some "").isSome := by
      rw [List.find?_isSome]
      exact ⟨k, hkmem, decide_eq_true hkval⟩
    obtain ⟨k2, hk2⟩ := Option.isSome_iff_exists.mp hsome
    exact ⟨_, by simp only [verarbeiteZeile]; rw [if_neg hlen, hk2]⟩

theorem verarbeiteZeilen_fehler_existenz (rs : List (List String))
    (h : ∃ r ∈ rs, ∃ e, verarbeiteZeile r = .error e) :
    ∃ e2, verarbeiteZeilen rs = .error e2 := by
  induction rs with
  | nil =>
    obtain ⟨r, hr, _⟩ := h
    exact absurd hr (List.not_mem_nil r)
  | cons p rest ih =>
    cases hp : verarbeiteZeile p with
    | error e => exact ⟨e, by rw [verarbeiteZeilen, hp]⟩
    | ok vp =>
      obtain ⟨r, hr, e, he⟩ := h
      rcases List.mem_cons.mp hr with rfl | hr2
      · rw [hp] at he
        exact Except.noConfusion he
      · obtain ⟨e2, he2⟩ := ih ⟨r, hr2, e, he⟩
        exact ⟨e2, by rw [verarbeiteZeilen, hp, he2]⟩

theorem endwertVon_eq (v : Vertrag) (zp : List (ℕ × ℚ)) (letzter : ℕ × ℚ)
    (h : berechne_zeitplan v = .ok zp) (hl : zp.getLast? = some letzter) :
    endwertVon v = letzter.2 := by
  simp only [endwertVon, h]
  rw [List.getLastD_eq_getLast?, hl]
  rfl

theorem exportSchleife_fehler (heute : String) (pre : List Vertrag) (v : Vertrag)
    (post : List Vertrag) (e : PyError)
    (hpre : ∀ p ∈ pre, ∃ zp, berechne_zeitplan p = .ok zp)
    (hv : berechne_zeitplan v = .error e) :
    exportSchleife heute (pre ++ v :: post) =
      ⟨pre.map zeileVon, pre.map (briefVon heute), some e⟩ := by
  induction pre with
  | nil => simp only [List.nil_append, exportSchleife, hv, List.map_nil]
  | cons p pre ih =>
    obtain ⟨zp, hzp⟩ := hpre p (by simp)
    have hne := berechne_zeitplan_ok_ne_nil p zp hzp
    obtain ⟨letzter, hl⟩ := Option.isSome_iff_exists.mp (List.getLast?_isSome.mpr hne)
    have ihh := ih fun q hq => hpre q (by simp [hq])
    have hzeile : zeileVon p = (p.vertragsnr, p.kundenname, format2 letzter.2) := by
      rw [zeileVon, endwertVon_eq p zp letzter hzp hl]
    have hbrief : briefVon heute p = (p.vertragsnr, erstelle_brief heute p letzter.2) := by
      rw [briefVon, endwertVon_eq p zp letzter hzp hl]
    simp only [List.cons_append, exportSchleife, hzp, hl, List.map_cons, hzeile, hbrief,
      List.append_eq, ihh]


/-- C1: for the Scenario A contract (number 1, "Mueller", annual rate 0.12,
contribution 100, cost 10, start 1000, 3 months) the valuation engine uses
monthly rate 0.01 and returns exactly the schedule
[(1, 1100.00), (2, 1201.00), (3, 1303.01)]. -/
theorem szenarioA_zeitplan :
    monatszins szenarioA.jahreszins = 1/100 ∧
      berechne_zeitplan szenarioA = .ok [(1, 1100), (2, 1201), (3, 130301/100)] := by
  constructor
  · norm_num [szenarioA, monatszins]
  · norm_num [szenarioA, berechne_zeitplan, zeitplanSchleife, folgewert, monatszins,
      round2, roundHalfEven]

/-- C2: for every contract satisfying the preconditions for which
berechne_zeitplan returns a schedule, the schedule has exactly `monate`
entries, the k-th entry (0-based) has month number k+1, and every value is
nonnegative. -/
theorem zeitplan_laenge_monate_werte (v : Vertrag)
    (hm : 0 < v.monate) (hs : 0 ≤ v.startbetrag) (hb : 0 ≤ v.monatsbeitrag)
    (hk : 0 ≤ v.monatskosten) (zp : List (ℕ × ℚ))
    (hok : berechne_zeitplan v = .ok zp) :
    zp.length = v.monate.toNat ∧
      (∀ k (h : k < zp.length), (zp.get ⟨k, h⟩).1 = k + 1) ∧
      (∀ e ∈ zp, 0 ≤ e.2) := by
  obtain ⟨hpos, hzp⟩ := berechne_zeitplan_ok_char v zp hok
  subst hzp
  refine ⟨by simp, ?_, ?_⟩
  · intro k hk2
    simp only [List.length_map, List.length_range] at hk2
    simp only [List.get_eq_getElem, List.getElem_map, List.getElem_range]
    omega
  · intro e he
    simp only [List.mem_map, List.mem_range] at he
    obtain ⟨j, hj, rfl⟩ := he
    exact round2_nonneg _ (hpos j hj)

/-- C2 witness: the theorem applied to the Scenario A contract. -/
theorem zeitplan_laenge_monate_werte_zeuge :
    [(1, (1100 : ℚ)), (2, 1201), (3, 130301/100)].length = (3 : ℤ).toNat :=
  (zeitplan_laenge_monate_werte szenarioA (by norm_num [szenarioA])
    (by norm_num [szenarioA]) (by norm_num [szenarioA]) (by norm_num [szenarioA]) _
    (by norm_num [szenarioA, berechne_zeitplan, zeitplanSchleife, folgewert, monatszins,
      round2, roundHalfEven])).1

/-- C3 counterexample: two contracts differing only in their number (and
name), both with zero months, produce the identical ValueError, so the
validation error does not identify the contract. -/
theorem validierung_ohne_vertragsnummer :
    berechne_zeitplan ⟨1, "A", 0, 0, 0, 0, 0⟩ = berechne_zeitplan ⟨2, "B", 0, 0, 0, 0, 0⟩ ∧
      (Vertrag.mk 1 "A" 0 0 0 0 0).vertragsnr ≠ (Vertrag.mk 2 "B" 0 0 0 0 0).vertragsnr ∧
      berechne_zeitplan ⟨1, "A", 0, 0, 0, 0, 0⟩ =
        .error ⟨"ValueError", "Monate müssen > 0 sein."⟩ :=
  ⟨rfl, by decide, rfl⟩

/-- C3 (amended): for every contract violating a precondition,
berechne_zeitplan fails, before producing any schedule entry, with a
ValueError identifying the violated field (the message does not carry the
contract number); the checks run in the order months, start amount,
contribution/cost. -/
theorem validierungsfehler_vor_berechnung (v : Vertrag) :
    (v.monate ≤ 0 →
      berechne_zeitplan v = .error ⟨"ValueError", "Monate müssen > 0 sein."⟩) ∧
    (0 < v.monate → v.startbetrag < 0 →
      berechne_zeitplan v = .error ⟨"ValueError", "Startbetrag darf nicht negativ sein."⟩) ∧
    (0 < v.monate → 0 ≤ v.startbetrag → (v.monatsbeitrag < 0 ∨ v.monatskosten < 0) →
      berechne_zeitplan v = .error ⟨"ValueError", "Beitrag/Kosten dürfen nicht negativ sein."⟩) := by
  refine ⟨fun h1 => ?_, fun h1 h2 => ?_, fun h1 h2 h3 => ?_⟩
  · rw [berechne_zeitplan, if_pos h1]
  · rw [berechne_zeitplan, if_neg (not_le.mpr h1), if_pos h2]
  · rw [berechne_zeitplan, if_neg (not_le.mpr h1), if_neg (not_lt.mpr h2), if_pos h3]

/-- C3 witness: the amended theorem applied to a contract with a negative
start amount. -/
theorem validierungsfehler_vor_berechnung_zeuge :
    berechne_zeitplan ⟨3, "C", 0, 0, 0, -1, 2⟩ =
      .error ⟨"ValueError", "Startbetrag darf nicht negativ sein."⟩ :=
  (validierungsfehler_vor_berechnung ⟨3, "C", 0, 0, 0, -1, 2⟩).2.1
    (by norm_num) (by norm_num)

/-- C4 counterexample: for the contract (7, cost 0.001, start 0, 6 months)
the rounded recurrence value at month 6 is negative, yet the error carries
month 1 (the first month whose unrounded value is negative), not month 6. -/
theorem negativpruefung_monat_gegenbeispiel :
    round2 (wertNach ⟨7, "N", 0, 0, 1/1000, 0, 6⟩ 6) < 0 ∧
      berechne_zeitplan ⟨7, "N", 0, 0, 1/1000, 0, 6⟩ =
        .error ⟨"ValueError", negativMsg 7 1⟩ ∧
      negativMsg 7 1 ≠ negativMsg 7 6 := by
  refine ⟨?_, ?_, by decide⟩
  · norm_num [wertNach, iterFolge, folgewert, monatszins, round2, roundHalfEven]
  · norm_num [berechne_zeitplan, zeitplanSchleife, folgewert, monatszins, negativMsg]

/-- C4 (amended): for every contract passing the preconditions, if the
unrounded recurrence value is negative at some month m within the contract
term and nonnegative at all earlier months, berechne_zeitplan fails with a
ValueError carrying the contract number and month m, and no schedule is
produced. -/
theorem negativer_wert_fehler (v : Vertrag) (hm : 0 < v.monate)
    (hs : 0 ≤ v.startbetrag) (hb : 0 ≤ v.monatsbeitrag) (hk : 0 ≤ v.monatskosten)
    (m : ℕ) (hm1 : 0 < m) (hm2 : m ≤ v.monate.toNat)
    (hneg : wertNach v m < 0)
    (hvor : ∀ m2, 0 < m2 → m2 < m → 0 ≤ wertNach v m2) :
    berechne_zeitplan v = .error ⟨"ValueError", negativMsg v.vertragsnr m⟩ := by
  rw [berechne_zeitplan_offen v hm hs hb hk]
  have h := zeitplanSchleife_fehler_von v (monatszins v.jahreszins) v.startbetrag 1
    v.monate.toNat (m - 1) (by omega)
    (by rw [show m - 1 + 1 = m from by omega]; exact hneg)
    (fun j hj => hvor (j + 1) (by omega) (by omega))
  rw [show 1 + (m - 1) = m from by omega] at h
  exact h

/-- C4 witness: the amended theorem applied to a contract whose first month
value is negative. -/
theorem negativer_wert_fehler_zeuge :
    berechne_zeitplan ⟨3, "W", 0, 0, 5, 4, 2⟩ = .error ⟨"ValueError", negativMsg 3 1⟩ :=
  negativer_wert_fehler ⟨3, "W", 0, 0, 5, 4, 2⟩ (by norm_num) (by norm_num)
    (by norm_num) (by norm_num) 1 (by norm_num) (by norm_num)
    (by norm_num [wertNach, iterFolge, folgewert, monatszins])
    (by intro m2 h1 h2; exact absurd h1 (by omega))

/-- C8: for every contract with start amount, contribution and cost all
zero, any annual rate and any positive number of months, berechne_zeitplan
succeeds and every schedule value is 0. -/
theorem nullvertrag_zeitplan (v : Vertrag) (hs : v.startbetrag = 0)
    (hb : v.monatsbeitrag = 0) (hk : v.monatskosten = 0) (hm : 0 < v.monate) :
    berechne_zeitplan v =
      .ok ((List.range v.monate.toNat).map fun j => (1 + j, (0 : ℚ))) := by
  have hiter : ∀ n,
      iterFolge v.monatsbeitrag v.monatskosten (monatszins v.jahreszins) v.startbetrag n = 0 := by
    intro n
    induction n with
    | zero => simpa [iterFolge]
    | succ n ih =>
      simp only [iterFolge, folgewert]
      rw [ih, hb, hk]
      ring
  have h0 : round2 0 = 0 := by norm_num [round2, roundHalfEven]
  rw [berechne_zeitplan_offen v hm (by rw [hs]) (by rw [hb]) (by rw [hk])]
  rw [zeitplanSchleife_ok_von v _ _ _ _ (fun j hj => le_of_eq (hiter (j + 1)).symm)]
  congr 1
  refine List.map_congr_left fun j hj => ?_
  rw [hiter, h0]

/-- C8 witness: the theorem applied to a zero contract with rate 3.5 over
two months. -/
theorem nullvertrag_zeitplan_zeuge :
    berechne_zeitplan ⟨5, "Z", 7/2, 0, 0, 0, 2⟩ =
      .ok ((List.range (2 : ℤ).toNat).map fun j => (1 + j, (0 : ℚ))) :=
  nullvertrag_zeitplan ⟨5, "Z", 7/2, 0, 0, 0, 2⟩ rfl rfl rfl (by norm_num)

/-- C5: the import fails with a ValueError when the header row is missing
(empty file) or when the trimmed header differs from the expected ordered
field list, reporting expected versus received headers; it returns
contracts only when the trimmed header matches exactly. -/
theorem header_pruefung (rows : List (List String)) :
    (rows = [] →
      import_vertraege_txt rows =
        .error ⟨"ValueError", "Keine Header-Zeile gefunden (erste Zeile leer?)."⟩) ∧
    (∀ hd data, rows = hd :: data → hd.map strip ≠ expected →
      import_vertraege_txt rows = .error ⟨"ValueError", headerFehlerMsg (hd.map strip)⟩) ∧
    (∀ vs, import_vertraege_txt rows = .ok vs →
      ∃ hd data, rows = hd :: data ∧ hd.map strip = expected) := by
  refine ⟨fun h => by subst h; rfl, fun hd data hsplit hne => ?_, fun vs hok => ?_⟩
  · subst hsplit
    simp only [import_vertraege_txt]
    rw [if_pos hne]
  · cases rows with
    | nil => exact Except.noConfusion hok
    | cons hd data =>
      by_cases hh : hd.map strip ≠ expected
      · simp only [import_vertraege_txt] at hok
        rw [if_pos hh] at hok
        exact Except.noConfusion hok
      · push_neg at hh
        exact ⟨hd, data, rfl, hh⟩

/-- C5 witness: the theorem applied to a file whose header misses five
columns. -/
theorem header_pruefung_zeuge :
    import_vertraege_txt [["vertragsnr", "kundenname"]] =
      .error ⟨"ValueError", headerFehlerMsg (["vertragsnr", "kundenname"].map strip)⟩ :=
  (header_pruefung [["vertragsnr", "kundenname"]]).2.1 ["vertragsnr", "kundenname"] []
    rfl (by decide)

/-- C6: with a correct header, a data row with a missing or (after
trimming) empty field makes the whole import fail, and when the rows before
it are well-formed the error is the ValueError naming the first empty
column of that row and the trimmed row content. -/
theorem leeres_feld_fehler (hd : List String) (data : List (List String))
    (hh : hd.map strip = expected) :
    ((∃ r ∈ data, r ≠ [] ∧ ∃ k ∈ expected, feldWert r k = none ∨ feldWert r k = some "") →
      ∃ e, import_vertraege_txt (hd :: data) = .error e) ∧
    (∀ pre r post, data.filter (fun x => x ≠ []) = pre ++ r :: post →
      (∀ p ∈ pre, ∃ vp, verarbeiteZeile p = .ok vp) →
      r.length ≤ expected.length →
      ∀ k, expected.find? (fun k2 => feldWert r k2 = none ∨ feldWert r k2 = some "") = some k →
      import_vertraege_txt (hd :: data) =
        .error ⟨"ValueError", leererWertMsg k r⟩) := by
  constructor
  · rintro ⟨r, hrmem, hrne, hk⟩
    obtain ⟨e, he⟩ := verarbeiteZeile_leer_fehler r hk
    obtain ⟨e2, he2⟩ := verarbeiteZeilen_fehler_existenz (data.filter fun x => x ≠ [])
      ⟨r, List.mem_filter.mpr ⟨hrmem, by simp [hrne]⟩, e, he⟩
    refine ⟨e2, ?_⟩
    simp only [import_vertraege_txt]
    rw [if_neg (not_not_intro hh), he2]
  · intro pre r post hsplit hpre hrlen k hfind
    have hre : verarbeiteZeile r = .error ⟨"ValueError", leererWertMsg k r⟩ := by
      simp only [verarbeiteZeile]
      rw [if_neg (not_lt.mpr hrlen), hfind]
    have hz := verarbeiteZeilen_praefix_fehler pre r post _ hpre hre
    simp only [import_vertraege_txt]
    rw [if_neg (not_not_intro hh), hsplit, hz]

/-- C6 witness: the naming branch applied to a file whose only data row has
an empty `monate` field. -/
theorem leeres_feld_fehler_zeuge :
    import_vertraege_txt [expected, ["1", "Kunde", "0.0", "0", "0", "0", ""]] =
      .error ⟨"ValueError", leererWertMsg "monate" ["1", "Kunde", "0.0", "0", "0", "0", ""]⟩ :=
  (leeres_feld_fehler expected [["1", "Kunde", "0.0", "0", "0", "0", ""]] (by decide)).2
    [] ["1", "Kunde", "0.0", "0", "0", "0", ""] [] (by decide)
    (fun p hp => absurd hp (List.not_mem_nil p)) (by decide) "monate" (by decide)

/-- C7: the exporter processes contracts in input order and aborts the
whole export on the first valuation failure: the failing contract and all
later ones get no results row and no letter, while the rows and letters of
the earlier contracts remain written. -/
theorem export_bricht_bei_fehler_ab (heute : String) (vertraege : List Vertrag)
    (pre : List Vertrag) (v : Vertrag) (post : List Vertrag)
    (hsplit : vertraege = pre ++ v :: post)
    (hpre : ∀ p ∈ pre, ∃ zp, berechne_zeitplan p = .ok zp)
    (e : PyError) (hv : berechne_zeitplan v = .error e) :
    export_ergebnisse heute vertraege =
      ⟨pre.map zeileVon, pre.map (briefVon heute), some e⟩ := by
  subst hsplit
  exact exportSchleife_fehler heute pre v post e hpre hv

/-- C7 witness: exporting the Scenario A contract followed by an invalid
contract writes exactly Scenario A's row and letter and then aborts. -/
theorem export_bricht_bei_fehler_ab_zeuge :
    export_ergebnisse "01.01.2024" [szenarioA, ⟨2, "B", 0, 0, 0, 0, 0⟩] =
      ⟨[szenarioA].map zeileVon, [szenarioA].map (briefVon "01.01.2024"),
        some ⟨"ValueError", "Monate müssen > 0 sein."⟩⟩ :=
  export_bricht_bei_fehler_ab "01.01.2024" [szenarioA, ⟨2, "B", 0, 0, 0, 0, 0⟩]
    [szenarioA] ⟨2, "B", 0, 0, 0, 0, 0⟩ [] rfl
    (by
      intro p hp
      rw [List.mem_singleton] at hp
      subst hp
      exact ⟨[(1, 1100), (2, 1201), (3, 130301/100)],
        by norm_num [szenarioA, berechne_zeitplan, zeitplanSchleife, folgewert,
          monatszins, round2, roundHalfEven]⟩)
    ⟨"ValueError", "Monate müssen > 0 sein."⟩ rfl

/-- C9: every valuation failure (precondition violations and negative-value
errors) and every import failure on rows of at most the header width
(header errors, empty fields, unparsable numbers) is the same Python
exception type ValueError, so these error kinds differ only in message
text. -/
theorem fehler_typ_valueerror :
    (∀ v e, berechne_zeitplan v = .error e → e.typ = "ValueError") ∧
    (∀ rows e, (∀ r ∈ rows, r.length ≤ expected.length) →
      import_vertraege_txt rows = .error e → e.typ = "ValueError") := by
  constructor
  · intro v e h
    rw [berechne_zeitplan] at h
    split_ifs at h with hA hB hC
    · injection h with h2; rw [← h2]
    · injection h with h2; rw [← h2]
    · injection h with h2; rw [← h2]
    · exact zeitplanSchleife_fehler_typ v _ _ _ _ e h
  · intro rows e hlen h
    cases rows with
    | nil =>
      simp only [import_vertraege_txt] at h
      injection h with h2
      rw [← h2]
    | cons hd data =>
      simp only [import_vertraege_txt] at h
      by_cases hh : hd.map strip ≠ expected
      · rw [if_pos hh] at h
        injection h with h2
        rw [← h2]
      · rw [if_neg hh] at h
        obtain ⟨r, hmem, hre⟩ := verarbeiteZeilen_fehler_mem _ _ h
        exact verarbeiteZeile_fehler_typ r e
          (hlen r (List.mem_cons_of_mem hd (List.mem_of_mem_filter hmem))) hre

/-- C9 witness: the valuation branch applied to a contract with zero
months. -/
theorem fehler_typ_valueerror_zeuge :
    (PyError.mk "ValueError" "Monate müssen > 0 sein.").typ = "ValueError" :=
  fehler_typ_valueerror.1 ⟨1, "A", 0, 0, 0, 0, 0⟩
    ⟨"ValueError", "Monate müssen > 0 sein."⟩ rfl

/-- C10: rounding affects only the recorded schedule entries: every entry
of a successful schedule is the rounding of the unrounded recurrence value
(so month m+1 is computed from the unrounded month-m value); the negativity
check tests the unrounded value, so the contract (9, cost 0.001, start 0,
2 months) fails although every rounded value is nonnegative; and feeding
the rounded month-1 entry of contract (11, rate 0.012, start 5) into the
recurrence would give a different month-2 entry than the recorded one. -/
theorem rundung_nur_in_eintraegen :
    (∀ (v : Vertrag) (zp : List (ℕ × ℚ)), berechne_zeitplan v = .ok zp →
      ∀ k (h : k < zp.length), zp.get ⟨k, h⟩ = (k + 1, round2 (wertNach v (k + 1)))) ∧
    (berechne_zeitplan ⟨9, "G", 0, 0, 1/1000, 0, 2⟩ =
        .error ⟨"ValueError", negativMsg 9 1⟩ ∧
      ∀ m, 0 < m → m ≤ 2 → 0 ≤ round2 (wertNach ⟨9, "G", 0, 0, 1/1000, 0, 2⟩ m)) ∧
    (berechne_zeitplan ⟨11, "H", 12/1000, 0, 0, 5, 2⟩ = .ok [(1, 5), (2, 501/100)] ∧
      round2 (folgewert 5 0 0 (monatszins (12/1000))) ≠ 501/100) := by
  refine ⟨?_, ⟨?_, ?_⟩, ⟨?_, ?_⟩⟩
  · intro v zp hok k hk
    obtain ⟨hpos, hzp⟩ := berechne_zeitplan_ok_char v zp hok
    subst hzp
    simp only [List.length_map, List.length_range] at hk
    simp only [List.get_eq_getElem, List.getElem_map, List.getElem_range]
    rw [Nat.add_comm 1 k]
  · norm_num [berechne_zeitplan, zeitplanSchleife, folgewert, monatszins, negativMsg]
  · intro m h1 h2
    interval_cases m <;>
      norm_num [wertNach, iterFolge, folgewert, monatszins, round2, roundHalfEven]
  · norm_num [berechne_zeitplan, zeitplanSchleife, folgewert, monatszins,
      round2, roundHalfEven]
  · norm_num [folgewert, monatszins, round2, roundHalfEven]

/-- C10 witness: the general part applied to the first entry of Scenario
A's schedule. -/
theorem rundung_nur_in_eintraegen_zeuge :
    ([(1, (1100 : ℚ)), (2, 1201), (3, 130301/100)].get
        ⟨0, by norm_num⟩) = (0 + 1, round2 (wertNach szenarioA (0 + 1))) :=
  rundung_nur_in_eintraegen.1 szenarioA [(1, 1100), (2, 1201), (3, 130301/100)]
    (by norm_num [szenarioA, berechne_zeitplan, zeitplanSchleife, folgewert,
      monatszins, round2, roundHalfEven]) 0 (by norm_num)
